import Mathlib

/-!
Verification of the eRobot serial data-collection core.

Shallow embedding of `src/python/analog_data_collector.py` (session protocol
and streaming ingestion buffer) and `src/python/datastructure_lib.py`
(session statistics engine, function `write_metafile`).

Modelling conventions:
  * Python floats are modelled as rationals; the numeric parsing done by the
    built-in `float` on plain decimal numerals is modelled by `pyFloat?`.
  * The serial transport is modelled by the list of already-decoded,
    already-stripped lines the poll loop observes; wall-clock effects
    (duration elapsed, keyboard interrupt, handshake deadline checks) are
    modelled as explicit events carrying the elapsed time where the code
    reads the clock.
  * `matplotlib` visualisation, `print` calls and file persistence mechanics
    are display or I/O glue with no effect on the collector state and are
    omitted.
-/

/-! ## String primitives, modelling the Python operations used by the code -/

/-- Accumulator-style decimal digit evaluation. -/
def digitsToNat : List Char → Nat → Nat
  | [], acc => acc
  | c :: cs, acc => digitsToNat cs (acc * 10 + (c.toNat - 48))

/-- All characters are decimal digits. -/
def allDigits (l : List Char) : Bool := l.all (fun c => c.isDigit)

/-- Value of an unsigned decimal numeral with integer part and fractional part. -/
def decimalValue (intPart fracPart : List Char) : ℚ :=
  (digitsToNat intPart 0 : ℚ) + (digitsToNat fracPart 0 : ℚ) / ((10 : ℚ) ^ fracPart.length)

/-- Parse an unsigned decimal numeral, digits with an optional fractional part.
Returns `none` where Python `float` would raise `ValueError`. -/
def parseUnsignedFloat (l : List Char) : Option ℚ :=
  let intPart := l.takeWhile (fun c => c.isDigit)
  let rest := l.dropWhile (fun c => c.isDigit)
  match rest with
  | [] => if intPart.isEmpty then none else some (digitsToNat intPart 0 : ℚ)
  | '.' :: frac =>
    if allDigits frac && !(intPart.isEmpty && frac.isEmpty) then
      some (decimalValue intPart frac)
    else none
  | _ => none

/-- Model of the Python built-in `float` on plain decimal numerals
(optional sign, digits, optional fractional part), the wire format of the
device data lines.  `none` models a raised `ValueError`. -/
def pyFloat? (s : String) : Option ℚ :=
  match s.toList with
  | '-' :: rest => (parseUnsignedFloat rest).map (fun v => -v)
  | '+' :: rest => parseUnsignedFloat rest
  | l => parseUnsignedFloat l

/-- Model of Python `str.split(",")` on the character list. -/
def splitCommaChars : List Char → List (List Char)
  | [] => [[]]
  | c :: cs =>
    if c = ',' then [] :: splitCommaChars cs
    else
      match splitCommaChars cs with
      | [] => [[c]]
      | g :: gs => (c :: g) :: gs

/-- Model of Python `str.split(",")`. -/
def splitComma (s : String) : List String :=
  (splitCommaChars s.toList).map (fun l => String.mk l)

/-- Model of Python `str.startswith`. -/
def strStartsWith (s pre : String) : Bool :=
  pre.toList.isPrefixOf s.toList

/-- Worker for `removeAll`: `skip` counts characters still to drop because
they belong to an occurrence of the pattern already matched. -/
def removeAllAux (pat : List Char) : Nat → List Char → List Char
  | _, [] => []
  | skip + 1, _ :: cs => removeAllAux pat skip cs
  | 0, c :: cs =>
    if pat.isPrefixOf (c :: cs) then removeAllAux pat (pat.length - 1) cs
    else c :: removeAllAux pat 0 cs

/-- Remove every non-overlapping occurrence of `pat` from a character list,
scanning left to right. -/
def removeAll (pat : List Char) (l : List Char) : List Char :=
  removeAllAux pat 0 l

/-- Model of Python `str.replace(pat, "")`, as used on the format message. -/
def removeAllStr (s pat : String) : String :=
  String.mk (removeAll pat.toList s.toList)

/-! ## Data model of the collector -/

/-- A record: mapping from column name to numeric value, in Schema order
(Python dict preserves insertion order). -/
abbrev Rec := List (String × ℚ)

/-- The mutable state of an `ArduinoDataCollector`: the negotiated columns,
the bounded in-memory buffer, the accumulated stored data (the DataFrame,
as the list of its rows), whether the serial connection is open, and whether
the READY acknowledgment has been written. -/
structure Collector where
  columns : List String
  buffer : List Rec
  data : List Rec
  connectionOpen : Bool
  ackSent : Bool
deriving DecidableEq

/-- `ArduinoDataCollector.flush_buffer_to_dataframe`: if the buffer is
nonempty, move its rows into the stored data (direct assignment when the
stored data is empty, concatenation otherwise) and clear the buffer. -/
def flush_buffer_to_dataframe (c : Collector) : Collector :=
  if c.buffer = [] then c
  else
    { c with
      data := if c.data = [] then c.buffer else c.data ++ c.buffer
      buffer := [] }

/-- `ArduinoDataCollector.close_connection`: close the serial connection
when it is open. -/
def close_connection (c : Collector) : Collector :=
  if c.connectionOpen then { c with connectionOpen := false } else c

/-! ## Session protocol: handshake and format negotiation -/

/-- One iteration of a handshake polling loop: `line` is the complete line
read when `in_waiting > 0` (or `none` when no data is available), and
`elapsed` is the wall-clock time since the start of the call, as observed at
the deadline check of this iteration. -/
structure HsPoll where
  line : Option String
  elapsed : ℚ
deriving DecidableEq

/-- Outcome of `await_handshake`: acknowledgment sent, `TimeoutError`
raised, or still polling when the modelled event list is exhausted. -/
inductive HsResult
  | acked
  | timedOut
  | pending
deriving DecidableEq

/-- `ArduinoDataCollector.await_handshake`: poll for a line starting with
the handshake token INIT-COM; on a match write the READY acknowledgment and
return; otherwise, whenever the elapsed wall-clock time exceeds the timeout,
raise `TimeoutError`.  The collector state is returned alongside the
outcome; note that the code closes nothing on the timeout path. -/
def await_handshake (timeout : ℚ) (c : Collector) : List HsPoll → HsResult × Collector
  | [] => (HsResult.pending, c)
  | p :: ps =>
    match p.line with
    | some msg =>
      if strStartsWith msg "INIT-COM" then (HsResult.acked, { c with ackSent := true })
      else if timeout < p.elapsed then (HsResult.timedOut, c)
      else await_handshake timeout c ps
    | none =>
      if timeout < p.elapsed then (HsResult.timedOut, c)
      else await_handshake timeout c ps

/-- `ArduinoDataCollector.process_format_message`: poll for the first line
starting with the token Format: and commit the column list obtained by
removing every occurrence of the string consisting of Format: followed by a
space, then splitting on the comma.  Non-matching lines are discarded; the
wait is unbounded, so an exhausted line list leaves the schema unset. -/
def process_format_message : List String → Option (List String)
  | [] => none
  | msg :: rest =>
    if strStartsWith msg "Format:" then
      some (splitComma (removeAllStr msg "Format: "))
    else process_format_message rest

/-! ## Streaming ingestion -/

/-- One observable event of the `read_sensor_data` poll loop:
`durationCheck` models an iteration at which a duration limit was given and
the elapsed wall-clock time reached it; `interrupt` models a
`KeyboardInterrupt` arriving at the loop boundary; `line raw` models the
availability of the decoded, stripped line `raw`. -/
inductive InEvent
  | durationCheck
  | interrupt
  | line (raw : String)
deriving DecidableEq

/-- Reason the ingestion loop stopped: duration limit elapsed, STOP-COM
received, `KeyboardInterrupt` caught, or a `ValueError` from `float`
escaping the loop (a count-matching line with a non-numeric field). -/
inductive StopReason
  | durationElapsed
  | stopToken
  | interrupted
  | parseError
deriving DecidableEq

/-- Result of one loop iteration: continue with a new state, or leave the
loop with a reason. -/
inductive StepOut
  | cont (c : Collector)
  | stop (r : StopReason) (c : Collector)
deriving DecidableEq

/-- Parse every field with `pyFloat?`; `none` when any field fails, which in
the code is a raised `ValueError` discarding the partially built row. -/
def parseFields : List String → Option (List ℚ)
  | [] => some []
  | p :: ps =>
    match pyFloat? p, parseFields ps with
    | some v, some vs => some (v :: vs)
    | _, _ => none

/-- The dict comprehension over `zip(columns, parts)` applying `float` to
each field: the row mapping columns to parsed values, in column order. -/
def parseRow (columns parts : List String) : Option Rec :=
  match parseFields parts with
  | some vs => some (columns.zip vs)
  | none => none

/-- One iteration of the `read_sensor_data` while loop. -/
def ingestStep (bufferSize : Nat) (c : Collector) : InEvent → StepOut
  | InEvent.durationCheck => StepOut.stop StopReason.durationElapsed c
  | InEvent.interrupt => StepOut.stop StopReason.interrupted c
  | InEvent.line raw =>
    if raw = "STOP-COM" then StepOut.stop StopReason.stopToken c
    else
      let parts := splitComma raw
      if parts.length = c.columns.length then
        match parseRow c.columns parts with
        | some row =>
          let c2 := { c with buffer := c.buffer ++ [row] }
          if bufferSize ≤ c2.buffer.length then
            StepOut.cont (flush_buffer_to_dataframe c2)
          else StepOut.cont c2
        | none => StepOut.stop StopReason.parseError c
      else StepOut.cont c

/-- The `read_sensor_data` while loop run over a finite list of events:
returns the state at loop exit and the stop reason (`none` when the event
list is exhausted while the loop is still polling). -/
def ingestLoop (bufferSize : Nat) (c : Collector) : List InEvent → Collector × Option StopReason
  | [] => (c, none)
  | e :: es =>
    match ingestStep bufferSize c e with
    | StepOut.cont c2 => ingestLoop bufferSize c2 es
    | StepOut.stop r c2 => (c2, some r)

/-- The states reached after each processed event, up to and including loop
exit: the observable intermediate states of the ingestion loop. -/
def ingestTrace (bufferSize : Nat) (c : Collector) : List InEvent → List Collector
  | [] => []
  | e :: es =>
    match ingestStep bufferSize c e with
    | StepOut.cont c2 => c2 :: ingestTrace bufferSize c2 es
    | StepOut.stop _ c2 => [c2]

/-- `ArduinoDataCollector.read_sensor_data`: run the poll loop, then the
`finally` block: flush the remaining buffer, then close the connection, in
that order, on every exit path. -/
def read_sensor_data (bufferSize : Nat) (c : Collector) (events : List InEvent) :
    Collector × Option StopReason :=
  let out := ingestLoop bufferSize c events
  (close_connection (flush_buffer_to_dataframe out.1), out.2)

/-- All records held by the collector, stored data first, then the pending
buffer. -/
def totalRecs (c : Collector) : List Rec := c.data ++ c.buffer

/-- The records the loop accepts (appends to the buffer) before it stops,
in arrival order — the reference count for the no-record-lost property. -/
def acceptedRecords (columns : List String) : List InEvent → List Rec
  | [] => []
  | InEvent.durationCheck :: _ => []
  | InEvent.interrupt :: _ => []
  | InEvent.line raw :: es =>
    if raw = "STOP-COM" then []
    else
      let parts := splitComma raw
      if parts.length = columns.length then
        match parseRow columns parts with
        | some row => row :: acceptedRecords columns es
        | none => []
      else acceptedRecords columns es

/-! ## Session statistics engine (`write_metafile`) -/

/-- A naive Python `datetime`: the date reduced to a day count (the
calendar rendering itself is not needed by any claim), with the time of day
held in hour, minute, second, microsecond fields. -/
structure PyDatetime where
  daysSinceEpoch : ℤ
  hour : Nat
  minute : Nat
  second : Nat
  microsecond : Nat
deriving DecidableEq

/-- Absolute time in seconds, the quantity `(ts_off - ts_on).total_seconds()`
is the difference of. -/
def PyDatetime.toSeconds (t : PyDatetime) : ℚ :=
  (t.daysSinceEpoch : ℚ) * 86400 + (t.hour : ℚ) * 3600 + (t.minute : ℚ) * 60
    + (t.second : ℚ) + (t.microsecond : ℚ) / 1000000

/-- A time of day at hundredth-of-a-second resolution, the information
content of the string built from `strftime` plus `int(microsecond / 10000)`. -/
structure TimeOfDayHundredths where
  hour : Nat
  minute : Nat
  second : Nat
  hundredths : Nat
deriving DecidableEq

/-- The time-of-day value `write_metafile` records: hour, minute, second and
`int(ts.microsecond / 10000)` — truncating (Nat) division. -/
def formatTimeHundredths (t : PyDatetime) : TimeOfDayHundredths :=
  ⟨t.hour, t.minute, t.second, t.microsecond / 10000⟩

/-- Round to the nearest integer, ties to even: the rounding of Python
`round`. -/
def roundHalfEven (q : ℚ) : ℤ :=
  if Int.fract q < 1 / 2 then ⌊q⌋
  else if 1 / 2 < Int.fract q then ⌊q⌋ + 1
  else if ⌊q⌋ % 2 = 0 then ⌊q⌋ else ⌊q⌋ + 1

/-- Python `round(x, 2)` modelled exactly on rationals. -/
def pyRound2 (q : ℚ) : ℚ := (roundHalfEven (q * 100) : ℚ) / 100

/-- `numpy.diff`: consecutive differences. -/
def np_diff : List ℚ → List ℚ
  | [] => []
  | [_] => []
  | a :: b :: rest => (b - a) :: np_diff (b :: rest)

/-- `numpy.mean`. -/
def np_mean (l : List ℚ) : ℚ := l.sum / (l.length : ℚ)

/-- The square of `numpy.std` (the population variance): the standard
deviation itself is an irrational square root, and every claim about it
only distinguishes zero from nonzero, which the variance does as well. -/
def np_var (l : List ℚ) : ℚ :=
  (l.map (fun x => (x - np_mean l) ^ 2)).sum / (l.length : ℚ)

/-- `numpy.min` (0 on the empty list, which the code never hits). -/
def np_min : List ℚ → ℚ
  | [] => 0
  | x :: xs => xs.foldl min x

/-- `numpy.max` (0 on the empty list, which the code never hits). -/
def np_max : List ℚ → ℚ
  | [] => 0
  | x :: xs => xs.foldl max x

/-- Insert into a sorted list, ascending. -/
def insertSorted (x : ℚ) : List ℚ → List ℚ
  | [] => [x]
  | y :: ys => if x ≤ y then x :: y :: ys else y :: insertSorted x ys

/-- Insertion sort, ascending. -/
def sortQ (l : List ℚ) : List ℚ := l.foldr insertSorted []

/-- `numpy.median`: middle element of the sorted list for odd length, mean
of the two middle elements for even length (0 on the empty list, where the
code would produce NaN and count nothing — both yield zero counts). -/
def np_median (l : List ℚ) : ℚ :=
  let s := sortQ l
  let n := l.length
  if n = 0 then 0
  else if n % 2 = 1 then s.getD (n / 2) 0
  else (s.getD (n / 2 - 1) 0 + s.getD (n / 2) 0) / 2

/-- The `sampling_stats` dictionary of `write_metafile`. -/
structure SamplingStats where
  mean : ℚ
  std_dev_sq : ℚ
  min : ℚ
  max : ℚ
deriving DecidableEq

/-- The metadata dictionary `write_metafile` writes to `log.json`, with the
date kept as a day count and the formatted times as their
hundredth-of-a-second content. -/
structure SessionMetadata where
  recorded_data : List String
  date_days : ℤ
  start_time : TimeOfDayHundredths
  stop_time : TimeOfDayHundredths
  run_time_seconds : ℚ
  data_points_count : Nat
  average_sampling_frequency_hz : ℚ
  sampling_stats_micros : SamplingStats
  missing_data_points : Nat
  duplicated_data_points : Nat
deriving DecidableEq

/-- `write_metafile` from `datastructure_lib.py`, lines 83-122: the CSV read
is replaced by its result, the `time` column `time_list` and the recorded
column names `vars`; `data_points_count` is the row count, which equals
the length of the `time` column.  The single guard `len(sampling_intervals)
> 0` of the code selects both the frequency and the statistics values; it is
written here as two identical conditionals, one per field. -/
def write_metafile (ts_on ts_off : PyDatetime) (vars : List String)
    (time_list : List ℚ) : SessionMetadata :=
  let sampling_intervals := np_diff time_list
  let missing_points :=
    sampling_intervals.countP
      (fun x => decide ((3 / 2 : ℚ) * np_median sampling_intervals < x))
  let duplicated_points := sampling_intervals.countP (fun x => decide (x ≤ 0))
  let average_sampling_frequency : ℚ :=
    if 0 < sampling_intervals.length then
      1 / np_mean sampling_intervals * 1000000
    else 0
  let sampling_stats : SamplingStats :=
    if 0 < sampling_intervals.length then
      ⟨np_mean sampling_intervals, np_var sampling_intervals,
       np_min sampling_intervals, np_max sampling_intervals⟩
    else ⟨0, 0, 0, 0⟩
  let run_time := ts_off.toSeconds - ts_on.toSeconds
  { recorded_data := vars
    date_days := ts_on.daysSinceEpoch
    start_time := formatTimeHundredths ts_on
    stop_time := formatTimeHundredths ts_off
    run_time_seconds := pyRound2 run_time
    data_points_count := time_list.length
    average_sampling_frequency_hz := average_sampling_frequency
    sampling_stats_micros := sampling_stats
    missing_data_points := missing_points
    duplicated_data_points := duplicated_points }

/-- Modelled from the spec: the phrase rounded to hundredths of a second,
read as rounding the microsecond field to the nearest hundredth (half up;
at the counterexample input every rounding convention agrees).  Used only
to compare against the truncation the code performs. -/
def roundHundredths (micro : Nat) : Nat := (micro + 5000) / 10000

/-! ## Concrete fixtures for witnesses and counterexamples -/

/-- A collector synchronised on the schema of the end-to-end scenario. -/
def collectorTV : Collector :=
  { columns := ["time", "volt"], buffer := [], data := []
    connectionOpen := true, ackSent := false }

/-- The event stream of the end-to-end scenario. -/
def eventsC1 : List InEvent :=
  [InEvent.line "0,1.0", InEvent.line "1,2.5", InEvent.line "STOP-COM"]

/-- An arbitrary fixed datetime. -/
def tsZero : PyDatetime := ⟨0, 0, 0, 0, 0⟩

/-- A datetime whose microsecond field separates truncation from rounding
at hundredth-of-a-second resolution. -/
def tsC9 : PyDatetime := ⟨0, 12, 30, 15, 6000⟩

/-! ## Helper lemmas -/

theorem flush_spec (c : Collector) :
    (flush_buffer_to_dataframe c).data = c.data ++ c.buffer ∧
    (flush_buffer_to_dataframe c).buffer = [] ∧
    (flush_buffer_to_dataframe c).columns = c.columns ∧
    (flush_buffer_to_dataframe c).connectionOpen = c.connectionOpen := by
  unfold flush_buffer_to_dataframe
  by_cases h : c.buffer = []
  · simp [h]
  · by_cases hd : c.data = [] <;> simp [h, hd]

theorem close_spec (c : Collector) :
    (close_connection c).data = c.data ∧
    (close_connection c).buffer = c.buffer ∧
    (close_connection c).connectionOpen = false := by
  unfold close_connection
  by_cases h : c.connectionOpen <;> simp [h]

theorem ingestStep_line_accepted (bufferSize : Nat) (c : Collector) (raw : String) (row : Rec)
    (hne : raw ≠ "STOP-COM")
    (hlen : (splitComma raw).length = c.columns.length)
    (hp : parseRow c.columns (splitComma raw) = some row) :
    (bufferSize ≤ c.buffer.length + 1 →
      ingestStep bufferSize c (InEvent.line raw)
        = StepOut.cont (flush_buffer_to_dataframe { c with buffer := c.buffer ++ [row] }))
    ∧ (c.buffer.length + 1 < bufferSize →
      ingestStep bufferSize c (InEvent.line raw)
        = StepOut.cont { c with buffer := c.buffer ++ [row] }) := by
  constructor
  · intro hfl
    simp [ingestStep, hne, hlen, hp, List.length_append, hfl]
  · intro hlt
    have hnfl : ¬ (bufferSize ≤ c.buffer.length + 1) := by omega
    simp [ingestStep, hne, hlen, hp, List.length_append, hnfl]

theorem ingestStep_line_discard (bufferSize : Nat) (c : Collector) (raw : String)
    (hne : raw ≠ "STOP-COM")
    (hlen : (splitComma raw).length ≠ c.columns.length) :
    ingestStep bufferSize c (InEvent.line raw) = StepOut.cont c := by
  simp [ingestStep, hne, hlen]

theorem ingestStep_line_error (bufferSize : Nat) (c : Collector) (raw : String)
    (hne : raw ≠ "STOP-COM")
    (hlen : (splitComma raw).length = c.columns.length)
    (hp : parseRow c.columns (splitComma raw) = none) :
    ingestStep bufferSize c (InEvent.line raw) = StepOut.stop StopReason.parseError c := by
  simp [ingestStep, hne, hlen, hp]

theorem ingestLoop_spec (bufferSize : Nat) (events : List InEvent) :
    ∀ c : Collector,
      totalRecs (ingestLoop bufferSize c events).1
          = totalRecs c ++ acceptedRecords c.columns events ∧
      (ingestLoop bufferSize c events).1.columns = c.columns := by
  induction events with
  | nil => intro c; simp [ingestLoop, acceptedRecords]
  | cons e es ih =>
    intro c
    cases e with
    | durationCheck => simp [ingestLoop, ingestStep, acceptedRecords]
    | interrupt => simp [ingestLoop, ingestStep, acceptedRecords]
    | line raw =>
      by_cases hne : raw = "STOP-COM"
      · simp [ingestLoop, ingestStep, acceptedRecords, hne]
      · by_cases hlen : (splitComma raw).length = c.columns.length
        · cases hp : parseRow c.columns (splitComma raw) with
          | none =>
            have hstep := ingestStep_line_error bufferSize c raw hne hlen hp
            simp [ingestLoop, hstep, acceptedRecords, hne, hlen, hp]
          | some row =>
            by_cases hfl : bufferSize ≤ c.buffer.length + 1
            · have hstep := (ingestStep_line_accepted bufferSize c raw row hne hlen hp).1 hfl
              have hf := flush_spec { c with buffer := c.buffer ++ [row] }
              have ihc := ih (flush_buffer_to_dataframe { c with buffer := c.buffer ++ [row] })
              rw [ingestLoop, hstep]
              simp only [acceptedRecords, if_neg hne, hlen, if_pos rfl, hp]
              refine ⟨?_, ?_⟩
              · rw [ihc.1, hf.2.2.1]
                simp [totalRecs, hf.1, hf.2.1]
              · rw [ihc.2, hf.2.2.1]
            · have hlt : c.buffer.length + 1 < bufferSize := by omega
              have hstep := (ingestStep_line_accepted bufferSize c raw row hne hlen hp).2 hlt
              have ihc := ih { c with buffer := c.buffer ++ [row] }
              rw [ingestLoop, hstep]
              simp only [acceptedRecords, if_neg hne, hlen, if_pos rfl, hp]
              refine ⟨?_, ?_⟩
              · rw [ihc.1]
                simp [totalRecs]
              · exact ihc.2
        · have hstep := ingestStep_line_discard bufferSize c raw hne hlen
          have ihc := ih c
          rw [ingestLoop, hstep]
          simp only [acceptedRecords, if_neg hne, if_neg hlen]
          exact ihc

theorem ingestStep_inv (bufferSize : Nat) (c : Collector) (e : InEvent)
    (h : c.buffer.length = 0 ∨ c.buffer.length < bufferSize) :
    (∀ c2, ingestStep bufferSize c e = StepOut.cont c2 →
        c2.buffer.length = 0 ∨ c2.buffer.length < bufferSize)
    ∧ (∀ r c2, ingestStep bufferSize c e = StepOut.stop r c2 →
        c2.buffer.length = 0 ∨ c2.buffer.length < bufferSize) := by
  cases e with
  | durationCheck =>
    constructor
    · intro c2 hc2; simp [ingestStep] at hc2
    · intro r c2 hc2; simp [ingestStep] at hc2; exact hc2.2 ▸ h
  | interrupt =>
    constructor
    · intro c2 hc2; simp [ingestStep] at hc2
    · intro r c2 hc2; simp [ingestStep] at hc2; exact hc2.2 ▸ h
  | line raw =>
    by_cases hne : raw = "STOP-COM"
    · constructor
      · intro c2 hc2; simp [ingestStep, hne] at hc2
      · intro r c2 hc2; simp [ingestStep, hne] at hc2; exact hc2.2 ▸ h
    · by_cases hlen : (splitComma raw).length = c.columns.length
      · cases hp : parseRow c.columns (splitComma raw) with
        | none =>
          have hstep := ingestStep_line_error bufferSize c raw hne hlen hp
          constructor
          · intro c2 hc2; rw [hstep] at hc2; simp at hc2
          · intro r c2 hc2; rw [hstep] at hc2; simp at hc2; exact hc2.2 ▸ h
        | some row =>
          by_cases hfl : bufferSize ≤ c.buffer.length + 1
          · have hstep := (ingestStep_line_accepted bufferSize c raw row hne hlen hp).1 hfl
            constructor
            · intro c2 hc2
              rw [hstep] at hc2
              simp at hc2
              have hf := flush_spec { c with buffer := c.buffer ++ [row] }
              rw [← hc2]
              rw [hf.2.1]
              simp
            · intro r c2 hc2; rw [hstep] at hc2; simp at hc2
          · have hlt : c.buffer.length + 1 < bufferSize := by omega
            have hstep := (ingestStep_line_accepted bufferSize c raw row hne hlen hp).2 hlt
            constructor
            · intro c2 hc2
              rw [hstep] at hc2
              simp at hc2
              rw [← hc2]
              simp [List.length_append]
              omega
            · intro r c2 hc2; rw [hstep] at hc2; simp at hc2
      · have hstep := ingestStep_line_discard bufferSize c raw hne hlen
        constructor
        · intro c2 hc2; rw [hstep] at hc2; simp at hc2; exact hc2 ▸ h
        · intro r c2 hc2; rw [hstep] at hc2; simp at hc2

theorem ingestTrace_inv (bufferSize : Nat) (events : List InEvent) :
    ∀ c : Collector,
      (c.buffer.length = 0 ∨ c.buffer.length < bufferSize) →
      ∀ c2 ∈ ingestTrace bufferSize c events,
        c2.buffer.length = 0 ∨ c2.buffer.length < bufferSize := by
  induction events with
  | nil => intro c _ c2 hc2; simp [ingestTrace] at hc2
  | cons e es ih =>
    intro c h c2 hc2
    cases hstep : ingestStep bufferSize c e with
    | cont c3 =>
      rw [ingestTrace, hstep] at hc2
      have h3 := (ingestStep_inv bufferSize c e h).1 c3 hstep
      rcases List.mem_cons.mp hc2 with rfl | hc2
      · exact h3
      · exact ih c3 h3 c2 hc2
    | stop r c3 =>
      rw [ingestTrace, hstep] at hc2
      have h3 := (ingestStep_inv bufferSize c e h).2 r c3 hstep
      simp at hc2
      exact hc2 ▸ h3

theorem np_diff_length : ∀ l : List ℚ, (np_diff l).length = l.length - 1
  | [] => rfl
  | [_] => rfl
  | a :: b :: r => by
    have ih := np_diff_length (b :: r)
    simp [np_diff] at ih ⊢
    omega

theorem parseFields_length : ∀ (ps : List String) (vs : List ℚ),
    parseFields ps = some vs → vs.length = ps.length
  | [], vs => by
    simp only [parseFields, Option.some.injEq]
    rintro rfl
    rfl
  | p :: ps, vs => by
    simp only [parseFields]
    cases hv : pyFloat? p with
    | none => simp
    | some v =>
      cases hp : parseFields ps with
      | none => simp
      | some ws =>
        simp only [Option.some.injEq]
        rintro rfl
        have := parseFields_length ps ws hp
        simp [this]

theorem parseFields_getD : ∀ (ps : List String) (vs : List ℚ),
    parseFields ps = some vs →
    ∀ i, i < ps.length → pyFloat? (ps.getD i "") = some (vs.getD i 0)
  | [], vs => by simp
  | p :: ps, vs => by
    simp only [parseFields]
    cases hv : pyFloat? p with
    | none => simp
    | some v =>
      cases hp : parseFields ps with
      | none => simp
      | some ws =>
        simp only [Option.some.injEq]
        rintro rfl
        intro i hi
        cases i with
        | zero => simpa using hv
        | succ j =>
          simp only [List.getD_cons_succ]
          exact parseFields_getD ps ws hp j (by simpa using hi)

theorem zip_getD : ∀ (l1 : List String) (l2 : List ℚ) (i : Nat),
    i < l1.length → i < l2.length →
    (l1.zip l2).getD i ("", 0) = (l1.getD i "", l2.getD i 0)
  | [], _, i, h1, _ => absurd h1 (by simp)
  | _ :: _, [], i, _, h2 => absurd h2 (by simp)
  | a :: l1, b :: l2, 0, _, _ => rfl
  | a :: l1, b :: l2, i + 1, h1, h2 => by
    simp only [List.zip_cons_cons, List.getD_cons_succ]
    exact zip_getD l1 l2 i (by simpa using h1) (by simpa using h2)

/-! ## Claims -/

/-- Claim C1: on every termination path of ingestion (duration limit
elapsed, stop token STOP-COM received, or cancellation via keyboard
interrupt), `read_sensor_data` performs a final flush of the partial buffer
before the transport is closed, so the stored data holds exactly the
accepted records, in order — the total stored record count equals the total
accepted count and no accepted record is lost on shutdown. -/
theorem C1_no_record_lost (bufferSize : Nat) (c0 : Collector) (events : List InEvent)
    (r : StopReason)
    (hbuf : c0.buffer = []) (hdata : c0.data = [])
    (_hstop : (ingestLoop bufferSize c0 events).2 = some r)
    (_hr : r = StopReason.durationElapsed ∨ r = StopReason.stopToken ∨
        r = StopReason.interrupted) :
    (read_sensor_data bufferSize c0 events).1.data = acceptedRecords c0.columns events ∧
    (read_sensor_data bufferSize c0 events).1.buffer = [] ∧
    (read_sensor_data bufferSize c0 events).1.connectionOpen = false := by
  have hl := ingestLoop_spec bufferSize events c0
  have hf := flush_spec (ingestLoop bufferSize c0 events).1
  have hc := close_spec (flush_buffer_to_dataframe (ingestLoop bufferSize c0 events).1)
  refine ⟨?_, ?_, ?_⟩
  · show (close_connection (flush_buffer_to_dataframe (ingestLoop bufferSize c0 events).1)).data = _
    rw [hc.1, hf.1]
    have htot := hl.1
    simp [totalRecs, hbuf, hdata] at htot
    exact htot
  · show (close_connection (flush_buffer_to_dataframe (ingestLoop bufferSize c0 events).1)).buffer = _
    rw [hc.2.1, hf.2.1]
  · exact hc.2.2

/-- Witness for C1: the end-to-end scenario, two valid data lines then the
stop token; the loop stops with the stop-token reason and the stored data
is exactly the accepted records, the buffer empty, the connection closed. -/
theorem C1_witness :
    (ingestLoop 100 collectorTV eventsC1).2 = some StopReason.stopToken ∧
    ((read_sensor_data 100 collectorTV eventsC1).1.data
        = acceptedRecords collectorTV.columns eventsC1 ∧
      (read_sensor_data 100 collectorTV eventsC1).1.buffer = [] ∧
      (read_sensor_data 100 collectorTV eventsC1).1.connectionOpen = false) :=
  ⟨by decide,
   C1_no_record_lost 100 collectorTV eventsC1 StopReason.stopToken rfl rfl (by decide)
     (Or.inr (Or.inl rfl))⟩

/-- Claim C2: throughout ingestion the buffer length stays in
`[0, buffer_size]`; an accepted record whose append makes the length reach
`buffer_size` triggers a flush, an append that stays strictly below does
not, and immediately after any flush the buffer length is 0. -/
theorem C2_buffer_invariant (bufferSize : Nat) (c0 : Collector) (events : List InEvent)
    (h0 : c0.buffer = []) :
    (∀ c2 ∈ ingestTrace bufferSize c0 events, c2.buffer.length ≤ bufferSize)
    ∧ (∀ c : Collector, (flush_buffer_to_dataframe c).buffer = [])
    ∧ (∀ (c : Collector) (raw : String) (row : Rec),
        raw ≠ "STOP-COM" →
        (splitComma raw).length = c.columns.length →
        parseRow c.columns (splitComma raw) = some row →
        (c.buffer.length + 1 = bufferSize →
          ingestStep bufferSize c (InEvent.line raw)
            = StepOut.cont (flush_buffer_to_dataframe { c with buffer := c.buffer ++ [row] }))
        ∧ (c.buffer.length + 1 < bufferSize →
          ingestStep bufferSize c (InEvent.line raw)
            = StepOut.cont { c with buffer := c.buffer ++ [row] })) := by
  refine ⟨?_, ?_, ?_⟩
  · intro c2 hc2
    have h := ingestTrace_inv bufferSize events c0 (Or.inl (by simp [h0])) c2 hc2
    omega
  · intro c
    exact (flush_spec c).2.1
  · intro c raw row hne hlen hp
    have hs := ingestStep_line_accepted bufferSize c raw row hne hlen hp
    exact ⟨fun he => hs.1 (Nat.le_of_eq he.symm), hs.2⟩

/-- Witness for C2: with `buffer_size = 1`, accepting the line 0,1.0 fills
the buffer to capacity and the step flushes at once. -/
theorem C2_witness :
    ingestStep 1 collectorTV (InEvent.line "0,1.0")
      = StepOut.cont (flush_buffer_to_dataframe
          { collectorTV with
            buffer := collectorTV.buffer
              ++ [(parseRow collectorTV.columns (splitComma "0,1.0")).getD []] }) :=
  ((C2_buffer_invariant 1 collectorTV [] rfl).2.2 collectorTV "0,1.0"
      ((parseRow collectorTV.columns (splitComma "0,1.0")).getD [])
      (by decide) (by decide) rfl).1 rfl

/-- Counterexample to C3 as stated: on the line 1,abc the field count
matches the two columns, the second field fails `float` parsing, and the
step does not continue with an unchanged state — it leaves the loop with
the uncaught `ValueError`, contradicting does not raise, continues. -/
theorem C3_counterexample :
    ingestStep 100 collectorTV (InEvent.line "1,abc")
        = StepOut.stop StopReason.parseError collectorTV ∧
    ingestStep 100 collectorTV (InEvent.line "1,abc") ≠ StepOut.cont collectorTV := by
  exact ⟨by decide, by decide⟩

/-- Claim C3 (amended): a data line whose field count mismatches the Schema
is silently discarded — no record, no buffer growth, no raise, ingestion
continues — while a count-matching line with a field that fails `float`
parsing raises an uncaught `ValueError` that terminates ingestion with the
state unchanged (the finally block still flushes and closes). -/
theorem C3_discard_or_error (bufferSize : Nat) (c : Collector) (raw : String)
    (hne : raw ≠ "STOP-COM") :
    ((splitComma raw).length ≠ c.columns.length →
      ingestStep bufferSize c (InEvent.line raw) = StepOut.cont c)
    ∧ ((splitComma raw).length = c.columns.length →
      parseRow c.columns (splitComma raw) = none →
      ingestStep bufferSize c (InEvent.line raw) = StepOut.stop StopReason.parseError c) :=
  ⟨fun hlen => ingestStep_line_discard bufferSize c raw hne hlen,
   fun hlen hp => ingestStep_line_error bufferSize c raw hne hlen hp⟩

/-- Witness for C3 (amended): a three-field line against a two-column
schema is discarded and the loop continues with the state unchanged. -/
theorem C3_witness :
    ingestStep 100 collectorTV (InEvent.line "1,2,3") = StepOut.cont collectorTV :=
  (C3_discard_or_error 100 collectorTV "1,2,3" (by decide)).1 (by decide)

/-- Claim C10: flushing with an empty buffer is a no-op — data and buffer
(and every other field) are left unchanged, so the unconditional final
flush on termination never alters stored data when the buffer was just
flushed. -/
theorem C10_flush_empty_noop (c : Collector) (h : c.buffer = []) :
    flush_buffer_to_dataframe c = c := by
  unfold flush_buffer_to_dataframe
  simp [h]

/-- Witness for C10 at a concrete collector with an empty buffer. -/
theorem C10_witness : flush_buffer_to_dataframe collectorTV = collectorTV :=
  C10_flush_empty_noop collectorTV rfl

/-- A collector fresh from connect, before handshake: no schema, open
connection. -/
def collectorStart : Collector :=
  { columns := [], buffer := [], data := [], connectionOpen := true, ackSent := false }

/-- Counterexample to C4 as stated: a run in which the deadline passes with
no handshake line raises the timeout error, but the resulting state still
has the connection open — `await_handshake` does not close the transport,
contradicting the transport is closed. -/
theorem C4_counterexample :
    (await_handshake 0 collectorStart [HsPoll.mk none 1]).1 = HsResult.timedOut ∧
    (await_handshake 0 collectorStart [HsPoll.mk none 1]).2.connectionOpen = true := by
  constructor <;> norm_num [await_handshake, collectorStart]

/-- Claim C4 (amended): if no line starting with INIT-COM arrives before
the timeout elapses (wall clock from the start of the call), the call fails
with the handshake-timeout error and the collector state is unchanged: no
Schema is set, no acknowledgment sent, and the transport is left open —
closing it is left to the caller. -/
theorem C4_handshake_timeout (timeout : ℚ) (c : Collector) (polls : List HsPoll)
    (hno : ∀ p ∈ polls, ∀ s, p.line = some s → strStartsWith s "INIT-COM" = false)
    (hto : ∃ p ∈ polls, timeout < p.elapsed) :
    await_handshake timeout c polls = (HsResult.timedOut, c) := by
  revert hno hto
  induction polls with
  | nil =>
    intro _ hto
    simp at hto
  | cons p ps ih =>
    intro hno hto
    cases hl : p.line with
    | some s =>
      have hns := hno p (by simp) s hl
      by_cases ht : timeout < p.elapsed
      · simp [await_handshake, hl, hns, ht]
      · have hex : ∃ q ∈ ps, timeout < q.elapsed := by
          rcases hto with ⟨q, hq, hqt⟩
          rcases List.mem_cons.mp hq with rfl | hq2
          · exact absurd hqt ht
          · exact ⟨q, hq2, hqt⟩
        simp only [await_handshake, hl, hns, Bool.false_eq_true, if_false, ht]
        exact ih (fun q hq => hno q (List.mem_cons_of_mem _ hq)) hex
    | none =>
      by_cases ht : timeout < p.elapsed
      · simp [await_handshake, hl, ht]
      · have hex : ∃ q ∈ ps, timeout < q.elapsed := by
          rcases hto with ⟨q, hq, hqt⟩
          rcases List.mem_cons.mp hq with rfl | hq2
          · exact absurd hqt ht
          · exact ⟨q, hq2, hqt⟩
        simp only [await_handshake, hl, ht, if_false]
        exact ih (fun q hq => hno q (List.mem_cons_of_mem _ hq)) hex

/-- Witness for C4 (amended) at a concrete run: one poll with no data past
the deadline. -/
theorem C4_witness :
    await_handshake 0 collectorStart [HsPoll.mk none 1]
      = (HsResult.timedOut, collectorStart) :=
  C4_handshake_timeout 0 collectorStart [HsPoll.mk none 1] (by simp) (by simp)

/-- Claim C7: a data line whose field count equals the Schema column count
and whose fields all parse produces exactly one record — the totality of
stored and buffered records grows by exactly that row — whose keys are the
Schema columns in Schema order and whose value at each position is the
parsed value of the positionally corresponding field. -/
theorem C7_valid_line_record (bufferSize : Nat) (c : Collector) (raw : String) (vs : List ℚ)
    (hne : raw ≠ "STOP-COM")
    (hlen : (splitComma raw).length = c.columns.length)
    (hp : parseFields (splitComma raw) = some vs) :
    (∃ c2, ingestStep bufferSize c (InEvent.line raw) = StepOut.cont c2 ∧
        totalRecs c2 = totalRecs c ++ [c.columns.zip vs])
    ∧ (c.columns.zip vs).map Prod.fst = c.columns
    ∧ (c.columns.zip vs).map Prod.snd = vs
    ∧ ∀ i, i < c.columns.length →
        pyFloat? ((splitComma raw).getD i "") = some (vs.getD i 0) ∧
        (c.columns.zip vs).getD i ("", 0) = (c.columns.getD i "", vs.getD i 0) := by
  have hvlen : vs.length = c.columns.length :=
    (parseFields_length (splitComma raw) vs hp).trans hlen
  have hrow : parseRow c.columns (splitComma raw) = some (c.columns.zip vs) := by
    simp [parseRow, hp]
  refine ⟨?_, ?_, ?_, ?_⟩
  · by_cases hfl : bufferSize ≤ c.buffer.length + 1
    · refine ⟨_, (ingestStep_line_accepted bufferSize c raw _ hne hlen hrow).1 hfl, ?_⟩
      have hf := flush_spec { c with buffer := c.buffer ++ [c.columns.zip vs] }
      simp [totalRecs, hf.1, hf.2.1]
    · have hlt : c.buffer.length + 1 < bufferSize := by omega
      refine ⟨_, (ingestStep_line_accepted bufferSize c raw _ hne hlen hrow).2 hlt, ?_⟩
      simp [totalRecs]
  · exact List.map_fst_zip c.columns vs (Nat.le_of_eq hvlen.symm)
  · exact List.map_snd_zip c.columns vs (Nat.le_of_eq hvlen)
  · intro i hi
    refine ⟨?_, ?_⟩
    · exact parseFields_getD (splitComma raw) vs hp i (by omega)
    · exact zip_getD c.columns vs i hi (by omega)

/-- Witness for C7 at the line 0,1.0 against the schema [time, volt]. -/
theorem C7_witness :
    (collectorTV.columns.zip ((parseFields (splitComma "0,1.0")).getD [])).map Prod.fst
        = collectorTV.columns ∧
    (collectorTV.columns.zip ((parseFields (splitComma "0,1.0")).getD [])).map Prod.snd
        = (parseFields (splitComma "0,1.0")).getD [] :=
  ⟨(C7_valid_line_record 100 collectorTV "0,1.0" ((parseFields (splitComma "0,1.0")).getD [])
      (by decide) (by decide) rfl).2.1,
   (C7_valid_line_record 100 collectorTV "0,1.0" ((parseFields (splitComma "0,1.0")).getD [])
      (by decide) (by decide) rfl).2.2.1⟩

/-- Counterexample to C8 as stated: the line Format:time,volt starts with
the format token Format: yet the committed schema is not the
prefix-stripped split [time, volt] — the code removes occurrences of
Format-colon-space only, committing [Format:time, volt]; nor is the line
discarded, as the stricter reading of the prefix would require. -/
theorem C8_counterexample :
    process_format_message ["Format:time,volt"] = some ["Format:time", "volt"] ∧
    (some ["Format:time", "volt"] : Option (List String)) ≠ some ["time", "volt"] ∧
    (some ["Format:time", "volt"] : Option (List String)) ≠ none := by
  exact ⟨by decide, by decide, by decide⟩

/-- Claim C8 (amended): the schema is committed from the first line
starting with Format:, as the line with every occurrence of the string
Format-colon-space removed, split on the comma; earlier non-matching lines
are discarded, and Format: time,volt yields the schema [time, volt]. -/
theorem C8_format_commit (noise : List String) (fmt : String) (rest : List String)
    (hn : ∀ l ∈ noise, strStartsWith l "Format:" = false)
    (hf : strStartsWith fmt "Format:" = true) :
    process_format_message (noise ++ fmt :: rest)
        = some (splitComma (removeAllStr fmt "Format: "))
    ∧ process_format_message ["INIT-COM", "Format: time,volt"] = some ["time", "volt"] := by
  constructor
  · revert hn
    induction noise with
    | nil =>
      intro _
      simp [process_format_message, hf]
    | cons a as ih =>
      intro hn
      have ha := hn a (by simp)
      simp only [List.cons_append, process_format_message, ha, Bool.false_eq_true, if_false]
      exact ih (fun l hl => hn l (List.mem_cons_of_mem _ hl))
  · decide

/-- Witness for C8 (amended) at a concrete stream: one noise line, then the
format line. -/
theorem C8_witness :
    process_format_message (["noise"] ++ "Format: time,volt" :: [])
        = some (splitComma (removeAllStr "Format: time,volt" "Format: ")) :=
  (C8_format_commit ["noise"] "Format: time,volt" [] (by decide) (by decide)).1

/-- Claim C5: missing points count the intervals strictly above 1.5 times
the median interval and duplicated points count the intervals at most 0;
on the interval sequence [10,10,10,40,10,-5] (median 10, from the time
column [0,10,20,30,70,80,75]) the counts are 1 and 1. -/
theorem C5_missing_duplicated (ts_on ts_off : PyDatetime) (vars : List String) (tl : List ℚ) :
    (write_metafile ts_on ts_off vars tl).missing_data_points
        = (np_diff tl).countP
            (fun x => decide ((3 / 2 : ℚ) * np_median (np_diff tl) < x))
    ∧ (write_metafile ts_on ts_off vars tl).duplicated_data_points
        = (np_diff tl).countP (fun x => decide (x ≤ 0))
    ∧ (write_metafile tsZero tsZero [] [0, 10, 20, 30, 70, 80, 75]).missing_data_points = 1
    ∧ (write_metafile tsZero tsZero [] [0, 10, 20, 30, 70, 80, 75]).duplicated_data_points
        = 1 := by
  refine ⟨rfl, rfl, ?_, ?_⟩
  · norm_num [write_metafile, np_diff, np_median, np_mean, sortQ, insertSorted,
      List.countP, List.countP.go]
  · norm_num [write_metafile, np_diff, List.countP, List.countP.go]

/-- Claim C6: the average sampling frequency is 0 when the record count is
at most 1, and then the interval statistics (mean, squared standard
deviation, min, max) are all 0; with at least two records it equals 1e6
divided by the mean sampling interval in microseconds — exactly, in exact
rational arithmetic. -/
theorem C6_avg_frequency (ts_on ts_off : PyDatetime) (vars : List String) (tl : List ℚ) :
    (tl.length ≤ 1 →
      (write_metafile ts_on ts_off vars tl).average_sampling_frequency_hz = 0 ∧
      (write_metafile ts_on ts_off vars tl).sampling_stats_micros = ⟨0, 0, 0, 0⟩)
    ∧ (2 ≤ tl.length →
      (write_metafile ts_on ts_off vars tl).average_sampling_frequency_hz
        = 1000000 / np_mean (np_diff tl)) := by
  constructor
  · intro h
    have hlen : (np_diff tl).length = 0 := by rw [np_diff_length]; omega
    have hnil : np_diff tl = [] := List.length_eq_zero.mp hlen
    constructor <;> simp [write_metafile, hnil]
  · intro h
    have hpos : 0 < (np_diff tl).length := by rw [np_diff_length]; omega
    simp [write_metafile, hpos]
    exact inv_mul_eq_div _ _

/-- Witness for C6 at the two-record time column [0, 10]. -/
theorem C6_witness :
    2 ≤ ([0, 10] : List ℚ).length ∧
    (write_metafile tsZero tsZero [] [0, 10]).average_sampling_frequency_hz
      = 1000000 / np_mean (np_diff [0, 10]) :=
  ⟨by decide, (C6_avg_frequency tsZero tsZero [] [0, 10]).2 (by decide)⟩

/-- Counterexample to C9 as stated: at microsecond 6000 (six milliseconds)
the recorded hundredths digit is 0 — the code truncates with integer
division — while rounding to the nearest hundredth of a second gives 1. -/
theorem C9_counterexample :
    (write_metafile tsC9 tsC9 [] []).start_time.hundredths = 0 ∧
    roundHundredths tsC9.microsecond = 1 ∧
    (write_metafile tsC9 tsC9 [] []).start_time.hundredths
      ≠ roundHundredths tsC9.microsecond := by
  exact ⟨by decide, by decide, by decide⟩

/-- Claim C9 (amended): the metadata records the start and stop times of
day truncated (floored) to hundredths of a second, and the run duration is
the stop wall-clock timestamp minus the start wall-clock timestamp —
independent of the data timestamp column — rounded to two decimals. -/
theorem C9_duration_and_times (ts_on ts_off : PyDatetime) (vars : List String)
    (tl tl2 : List ℚ) :
    (write_metafile ts_on ts_off vars tl).run_time_seconds
        = pyRound2 (ts_off.toSeconds - ts_on.toSeconds)
    ∧ (write_metafile ts_on ts_off vars tl).start_time
        = ⟨ts_on.hour, ts_on.minute, ts_on.second, ts_on.microsecond / 10000⟩
    ∧ (write_metafile ts_on ts_off vars tl).stop_time
        = ⟨ts_off.hour, ts_off.minute, ts_off.second, ts_off.microsecond / 10000⟩
    ∧ (write_metafile ts_on ts_off vars tl).run_time_seconds
        = (write_metafile ts_on ts_off vars tl2).run_time_seconds :=
  ⟨rfl, rfl, rfl, rfl⟩
